import Mathlib

/-!
Verification of the runtime value-binding layer (`ExecutionContext`) of the
wirefilter engine, shallowly embedded from
`src/engine/src/execution_context.rs`.

The schema (`Scheme`), field handle (`Field`) and runtime value (`LhsValue`)
types live in external crates of the repository (`scheme`, `types`) whose
sources are not available; they are modelled from the spec (sections 2, 3
and 6): a schema is an immutable ordered catalog of (name, declared type)
pairs, a field handle carries index, name, declared type and the identity
of its owning schema, and a runtime value is a tagged union exposing its
own type. Name resolution returns the handle of the first field with the
given name (the spec requires names to be unique).

Rust panics (the `unwrap` on a failed name lookup, the out-of-bounds array
index, the unset-field panic and the `debug_assert`) are modelled
explicitly: `set_field_value` returns `none` where the Rust code panics,
and `get_field_value_unchecked` returns an `Except GetError` value whose
error constructors name the three possible panics. The `debug_assert` is
modelled by a `debug : Bool` parameter: `true` is a debug build (the
assertion is checked), `false` is a release build (it is compiled out).
-/

namespace Wirefilter

/-- Modelled from the spec: the declared/runtime type tags of the external
`types` crate (`Type` in Rust; that name is a universe keyword in Lean).
The repository test uses at least `Int` and `Bool`. -/
inductive Ty where
  | Int
  | Bool
  | Bytes
deriving DecidableEq

/-- Modelled from the spec: the tagged runtime value of the external
`types` crate, one variant per value kind, exposing its own type. -/
inductive LhsValue where
  | Int (v : Int)
  | Bool (b : Bool)
  | Bytes (bs : List Nat)
deriving DecidableEq

/-- The `GetType` accessor of a runtime value: the tag of its variant. -/
def LhsValue.get_type : LhsValue → Ty
  | .Int _ => .Int
  | .Bool _ => .Bool
  | .Bytes _ => .Bytes

/-- Modelled from the spec: the immutable schema of the external `scheme`
crate — an ordered catalog of field declarations, each a unique name with
a declared type; the position in the list is the field's stable index. -/
structure Scheme where
  fields : List (String × Ty)
deriving DecidableEq

/-- The schema's field count (`Scheme::get_field_count`). -/
def Scheme.get_field_count (s : Scheme) : Nat :=
  s.fields.length

/-- Modelled from the spec: a field handle resolved from a schema —
numeric index, name, declared type, and the identity of the owning
schema. -/
structure Field where
  scheme : Scheme
  index : Nat
  name : String
  ty : Ty
deriving DecidableEq

/-- The declared type of a field (`Field::get_type`). -/
def Field.get_type (f : Field) : Ty :=
  f.ty

/-- Helper for name resolution: scan the tail `l` of `s.fields` starting at
absolute index `i`, returning the handle of the first field named `name`. -/
def lookupField (s : Scheme) (name : String) : Nat → List (String × Ty) → Option Field
  | _, [] => none
  | i, (n, t) :: rest =>
    if n = name then some { scheme := s, index := i, name := n, ty := t }
    else lookupField s name (i + 1) rest

/-- Modelled from the spec: `Scheme::get_field_index` — resolve a field
name against the schema, yielding a handle that carries the field's index,
declared type and owning-schema identity, or `none` if no field has that
name. -/
def Scheme.get_field_index (s : Scheme) (name : String) : Option Field :=
  lookupField s name 0 s.fields

/-- Rust `FieldValueTypeMismatchError` from `execution_context.rs`: the fault
produced when a value's type differs from the field's declared type,
carrying both types. -/
structure FieldValueTypeMismatchError where
  field_type : Ty
  value_type : Ty
deriving DecidableEq

/-- Rust `ExecutionContext` from `execution_context.rs`: a reference to the
associated scheme plus a fixed-length slot array (`Box<[Option<LhsValue>]>`),
one optional runtime value per schema field index. -/
structure ExecutionContext where
  scheme : Scheme
  values : List (Option LhsValue)
deriving DecidableEq

/-- Rust `ExecutionContext::new`: a fresh context for a scheme, with
`scheme.get_field_count()` slots, all empty (`vec![None; n]`). -/
def ExecutionContext.new (scheme : Scheme) : ExecutionContext :=
  { scheme := scheme, values := List.replicate scheme.get_field_count none }

/-- Well-formedness invariant of a context: the slot array has exactly one
slot per schema field. Established by `ExecutionContext.new` and preserved
by `set_field_value`. -/
def ExecutionContext.wf (ctx : ExecutionContext) : Prop :=
  ctx.values.length = ctx.scheme.get_field_count

instance (ctx : ExecutionContext) : Decidable ctx.wf := by
  unfold ExecutionContext.wf
  infer_instance

/-- The three panics reachable from `get_field_value_unchecked`:
the `debug_assert` on schema identity, the slice index out of bounds, and
the unset-field panic whose message names the missing field
(`Field {name} was registered but not given a value`). -/
inductive GetError where
  | debugAssertSchemeMismatch
  | indexOutOfBounds
  | fieldNotSet (name : String)
deriving DecidableEq

/-- Rust `ExecutionContext::get_field_value_unchecked`. In a debug build
(`debug = true`) the `debug_assert` compares the context's scheme with the
handle's owning scheme and panics on mismatch; a release build skips the
check. Then the slot at the handle's index is read: an in-bounds bound
slot yields its value, an in-bounds empty slot panics with a message
naming the field, an out-of-bounds index panics in the slice indexing. -/
def ExecutionContext.get_field_value_unchecked (debug : Bool) (ctx : ExecutionContext)
    (field : Field) : Except GetError LhsValue :=
  if debug ∧ ¬ctx.scheme = field.scheme then
    Except.error GetError.debugAssertSchemeMismatch
  else
    match ctx.values[field.index]? with
    | none => Except.error GetError.indexOutOfBounds
    | some none => Except.error (GetError.fieldNotSet field.name)
    | some (some v) => Except.ok v

/-- Rust `ExecutionContext::set_field_value`: resolve `name` against the
associated scheme (`none` models the panic of the `unwrap` when the name
does not resolve), compare the field's declared type with the value's
type; on equality store the value at the field's index (the slice index
assignment panics when out of bounds, again `none`) and return `Ok(())`
with the updated context; on mismatch leave the context untouched and
return the mismatch fault carrying both types. -/
def ExecutionContext.set_field_value (ctx : ExecutionContext) (name : String)
    (value : LhsValue) :
    Option (ExecutionContext × Except FieldValueTypeMismatchError Unit) :=
  match ctx.scheme.get_field_index name with
  | none => none
  | some field =>
    if field.get_type = value.get_type then
      if field.index < ctx.values.length then
        some ({ ctx with values := ctx.values.set field.index (some value) },
              Except.ok ())
      else none
    else
      some (ctx, Except.error
        { field_type := field.get_type, value_type := value.get_type })

/-- Resolution facts: a handle returned by `lookupField` is owned by the
schema it was resolved from, bears the requested name, and its index
points (within the scanned tail) at a declaration carrying its name and
declared type. -/
theorem lookupField_spec (s : Scheme) (name : String) :
    ∀ (i : Nat) (l : List (String × Ty)) (f : Field),
      lookupField s name i l = some f →
      f.scheme = s ∧ f.name = name ∧ i ≤ f.index ∧
        l[f.index - i]? = some (f.name, f.ty)
  | _, [], f => by intro h; exact absurd h (by simp [lookupField])
  | i, (n, t) :: rest, f => by
    intro h
    unfold lookupField at h
    by_cases hn : n = name
    · rw [if_pos hn] at h
      injection h with h
      subst h
      refine ⟨rfl, hn, Nat.le_refl _, ?_⟩
      simp
    · rw [if_neg hn] at h
      obtain ⟨h1, h2, h3, h4⟩ := lookupField_spec s name (i + 1) rest f h
      refine ⟨h1, h2, Nat.le_of_succ_le h3, ?_⟩
      have hlt : i < f.index := Nat.lt_of_succ_le h3
      have : f.index - i = (f.index - (i + 1)) + 1 := by omega
      rw [this]
      simpa using h4

/-- A handle resolved by `Scheme.get_field_index` is owned by that scheme,
bears the requested name, its index is within the schema's field count,
and the declaration at its index carries its name and declared type. -/
theorem get_field_index_spec (s : Scheme) (name : String) (f : Field)
    (h : s.get_field_index name = some f) :
    f.scheme = s ∧ f.name = name ∧ f.index < s.get_field_count ∧
      s.fields[f.index]? = some (f.name, f.ty) := by
  obtain ⟨h1, h2, _, h4⟩ := lookupField_spec s name 0 s.fields f h
  simp only [Nat.sub_zero] at h4
  refine ⟨h1, h2, ?_, h4⟩
  have := List.getElem?_eq_some_iff.mp h4
  exact this.1

/-- A slot of a context is bound: it is in bounds and holds a value. -/
def ExecutionContext.slotBound (ctx : ExecutionContext) (i : Nat) : Prop :=
  ∃ v, ctx.values[i]? = some (some v)

/-- One mutation step on a context: some `set_field_value` call that did
not panic took the context from `ctx` to `ctx'` (whether it returned
`Ok` or the type-mismatch fault). Reads (`get_field_value_unchecked`)
and the `scheme` accessor take `&self` in the source and cannot change
the context, so every state change of a live context is such a step. -/
def Step (ctx ctx' : ExecutionContext) : Prop :=
  ∃ name value r, ctx.set_field_value name value = some (ctx', r)

/-- Elimination for a successful `set_field_value` call: the name resolved
to the given handle, the declared and value types agree, the index is in
bounds, and the new context is the old one with exactly that slot
overwritten. -/
theorem set_field_value_ok_elim {ctx : ExecutionContext} {name : String}
    {value : LhsValue} {ctx' : ExecutionContext} (f : Field)
    (hres : ctx.scheme.get_field_index name = some f)
    (h : ctx.set_field_value name value = some (ctx', Except.ok ())) :
    f.get_type = value.get_type ∧ f.index < ctx.values.length ∧
      ctx' = { ctx with values := ctx.values.set f.index (some value) } := by
  unfold ExecutionContext.set_field_value at h
  rw [hres] at h
  dsimp only at h
  by_cases hty : f.get_type = value.get_type
  · rw [if_pos hty] at h
    by_cases hlt : f.index < ctx.values.length
    · rw [if_pos hlt] at h
      simp only [Option.some.injEq, Prod.mk.injEq] at h
      exact ⟨hty, hlt, h.1.symm⟩
    · rw [if_neg hlt] at h
      exact absurd h (by simp)
  · rw [if_neg hty] at h
    simp only [Option.some.injEq, Prod.mk.injEq] at h
    exact absurd h.2 (by simp)

/-- Elimination for any non-panicking `set_field_value` call: the scheme
reference is untouched and the slot array is either untouched (the
mismatch branch) or has exactly one in-bounds slot overwritten with a
value (the success branch). -/
theorem set_field_value_some_elim {ctx : ExecutionContext} {name : String}
    {value : LhsValue} {ctx' : ExecutionContext}
    {r : Except FieldValueTypeMismatchError Unit}
    (h : ctx.set_field_value name value = some (ctx', r)) :
    ctx'.scheme = ctx.scheme ∧
      (ctx' = ctx ∨ ∃ i, i < ctx.values.length ∧
        ctx'.values = ctx.values.set i (some value)) := by
  unfold ExecutionContext.set_field_value at h
  cases hres : ctx.scheme.get_field_index name with
  | none => rw [hres] at h; exact absurd h (by simp)
  | some f =>
    rw [hres] at h
    dsimp only at h
    by_cases hty : f.get_type = value.get_type
    · rw [if_pos hty] at h
      by_cases hlt : f.index < ctx.values.length
      · rw [if_pos hlt] at h
        simp only [Option.some.injEq, Prod.mk.injEq] at h
        refine ⟨?_, Or.inr ⟨f.index, hlt, ?_⟩⟩
        · rw [← h.1]
        · rw [← h.1]
      · rw [if_neg hlt] at h
        exact absurd h (by simp)
    · rw [if_neg hty] at h
      simp only [Option.some.injEq, Prod.mk.injEq] at h
      refine ⟨?_, Or.inl ?_⟩
      · rw [← h.1]
      · rw [← h.1]

/-- A freshly created context is well-formed. -/
theorem wf_new (s : Scheme) : (ExecutionContext.new s).wf := by
  simp [ExecutionContext.new, ExecutionContext.wf]

/-- Concrete one-field schema used by the repository's own test:
`Scheme! { foo: Int }`. -/
def schemeFooInt : Scheme :=
  { fields := [(("foo"), Ty.Int)] }

/-- The handle for field `foo` of `schemeFooInt`. -/
def fooField : Field :=
  { scheme := schemeFooInt, index := 0, name := ("foo"), ty := Ty.Int }

/-- Concrete two-field schema from the spec's second scenario:
`a: Integer, b: Boolean`. -/
def schemeAB : Scheme :=
  { fields := [(("a"), Ty.Int), (("b"), Ty.Bool)] }

/-- The handle for field `a` of `schemeAB`. -/
def aField : Field :=
  { scheme := schemeAB, index := 0, name := ("a"), ty := Ty.Int }

/-- The handle for field `b` of `schemeAB`. -/
def bField : Field :=
  { scheme := schemeAB, index := 1, name := ("b"), ty := Ty.Bool }

/-- C1: for every field `f` declared in the schema with type `T` and every
runtime value `v` whose type is exactly `T`, `set_field_value (f.name) v`
returns `Ok(())`, storing `v` in `f`'s slot, and a subsequent
`get_field_value_unchecked` of `f` (in debug or release mode) returns
exactly the stored value `v`, unmodified. -/
theorem claim_set_then_get_roundtrip (debug : Bool) (ctx : ExecutionContext)
    (name : String) (f : Field) (v : LhsValue)
    (hwf : ctx.wf)
    (hres : ctx.scheme.get_field_index name = some f)
    (hty : v.get_type = f.get_type) :
    ctx.set_field_value name v =
      some ({ ctx with values := ctx.values.set f.index (some v) }, Except.ok ()) ∧
    ExecutionContext.get_field_value_unchecked debug
        { ctx with values := ctx.values.set f.index (some v) } f = Except.ok v := by
  obtain ⟨hsch, hname, hcount, hdecl⟩ := get_field_index_spec _ _ _ hres
  have hlen : f.index < ctx.values.length := by rw [hwf]; exact hcount
  constructor
  · unfold ExecutionContext.set_field_value
    rw [hres]
    dsimp only
    rw [if_pos hty.symm, if_pos hlen]
  · unfold ExecutionContext.get_field_value_unchecked
    rw [if_neg (by simp [hsch]), List.getElem?_set_self hlen]

/-- Witness for C1, at the repository test's schema: binding `foo` to the
integer 42 in a fresh context succeeds and reads back as 42. -/
theorem claim_set_then_get_roundtrip_witness :
    (ExecutionContext.new schemeFooInt).set_field_value ("foo") (LhsValue.Int 42) =
      some ({ ExecutionContext.new schemeFooInt with
                values := (ExecutionContext.new schemeFooInt).values.set
                  fooField.index (some (LhsValue.Int 42)) }, Except.ok ()) ∧
    ExecutionContext.get_field_value_unchecked true
        { ExecutionContext.new schemeFooInt with
            values := (ExecutionContext.new schemeFooInt).values.set
              fooField.index (some (LhsValue.Int 42)) } fooField =
      Except.ok (LhsValue.Int 42) :=
  claim_set_then_get_roundtrip true (ExecutionContext.new schemeFooInt) ("foo")
    fooField (LhsValue.Int 42) (by decide) (by decide) (by decide)

/-- C2: for every field `f` declared with type `T` and value `v` of type
`T' ≠ T`, `set_field_value (f.name) v` returns the mismatch fault carrying
exactly the pair `(field_type = T, value_type = T')`, and the returned
context is exactly the context before the call — every slot, bound or
empty, is exactly as it was (all-or-nothing write). -/
theorem claim_type_mismatch_fault (ctx : ExecutionContext) (name : String)
    (f : Field) (v : LhsValue)
    (hres : ctx.scheme.get_field_index name = some f)
    (hty : v.get_type ≠ f.get_type) :
    ctx.set_field_value name v =
      some (ctx, Except.error
        { field_type := f.get_type, value_type := v.get_type }) := by
  unfold ExecutionContext.set_field_value
  rw [hres]
  dsimp only
  rw [if_neg (fun h => hty h.symm)]

/-- Witness for C2, reproducing the repository's own test
`test_field_value_type_mismatch`: setting `foo : Int` to `Bool false`
fails with `(field_type = Int, value_type = Bool)` and leaves the fresh
context unchanged. -/
theorem claim_type_mismatch_fault_witness :
    (ExecutionContext.new schemeFooInt).set_field_value ("foo") (LhsValue.Bool false) =
      some (ExecutionContext.new schemeFooInt,
        Except.error { field_type := Ty.Int, value_type := Ty.Bool }) :=
  claim_type_mismatch_fault (ExecutionContext.new schemeFooInt) ("foo") fooField
    (LhsValue.Bool false) (by decide) (by decide)

/-- C3: reading a declared field whose slot is empty halts with the fatal
unset-field fault, whose diagnostic carries the missing field's name; it
never returns a value (in particular no default or substitute). -/
theorem claim_unset_read_fatal (debug : Bool) (ctx : ExecutionContext) (f : Field)
    (hsch : f.scheme = ctx.scheme)
    (hempty : ctx.values[f.index]? = some none) :
    ctx.get_field_value_unchecked debug f =
      Except.error (GetError.fieldNotSet f.name) := by
  unfold ExecutionContext.get_field_value_unchecked
  rw [if_neg (by simp [hsch]), hempty]

/-- Witness for C3, at the spec's two-field scenario: with `a` set and `b`
never set, reading `b` panics naming `b`. -/
theorem claim_unset_read_fatal_witness :
    ExecutionContext.get_field_value_unchecked true
        { scheme := schemeAB, values := [some (LhsValue.Int 1), none] } bField =
      Except.error (GetError.fieldNotSet bField.name) :=
  claim_unset_read_fatal true
    { scheme := schemeAB, values := [some (LhsValue.Int 1), none] } bField
    (by decide) (by decide)

/-- C4: a context created for a schema with field count `N` has exactly
`N` slots, all of them empty, so reading any declared field of the schema
from the fresh context triggers the fatal unset-field fault. -/
theorem claim_new_all_empty (debug : Bool) (s : Scheme) (name : String) (f : Field)
    (hres : s.get_field_index name = some f) :
    (ExecutionContext.new s).values = List.replicate s.get_field_count none ∧
    (ExecutionContext.new s).get_field_value_unchecked debug f =
      Except.error (GetError.fieldNotSet f.name) := by
  obtain ⟨hsch, -, hcount, -⟩ := get_field_index_spec _ _ _ hres
  refine ⟨rfl, ?_⟩
  unfold ExecutionContext.get_field_value_unchecked ExecutionContext.new
  rw [if_neg (by simp [ExecutionContext.new, hsch])]
  dsimp only
  rw [List.getElem?_replicate_of_lt hcount]

/-- Witness for C4: a fresh context for the two-field schema has two empty
slots and reading `b` from it panics naming `b`. -/
theorem claim_new_all_empty_witness :
    (ExecutionContext.new schemeAB).values =
      List.replicate schemeAB.get_field_count none ∧
    (ExecutionContext.new schemeAB).get_field_value_unchecked true bField =
      Except.error (GetError.fieldNotSet bField.name) :=
  claim_new_all_empty true schemeAB ("b") bField (by decide)

/-- C5: two consecutive successful writes of `v1` then `v2` (both of the
field's declared type) to the same field leave its slot holding exactly
`v2`: a read returns `v2`, and the resulting context is identical to the
one produced by writing `v2` alone — no trace of `v1` remains anywhere in
the table (last write wins). -/
theorem claim_last_write_wins (debug : Bool) (ctx : ExecutionContext)
    (name : String) (f : Field) (v1 v2 : LhsValue) (ctx1 ctx2 : ExecutionContext)
    (hres : ctx.scheme.get_field_index name = some f)
    (hset1 : ctx.set_field_value name v1 = some (ctx1, Except.ok ()))
    (hset2 : ctx1.set_field_value name v2 = some (ctx2, Except.ok ())) :
    ctx2.values[f.index]? = some (some v2) ∧
    ctx2.get_field_value_unchecked debug f = Except.ok v2 ∧
    ctx.set_field_value name v2 = some (ctx2, Except.ok ()) := by
  obtain ⟨hsch, hname, hcount, hdecl⟩ := get_field_index_spec _ _ _ hres
  obtain ⟨hty1, hlt1, rfl⟩ := set_field_value_ok_elim f hres hset1
  obtain ⟨hty2, hlt2, rfl⟩ := set_field_value_ok_elim f (by exact hres) hset2
  have hsets : (ctx.values.set f.index (some v1)).set f.index (some v2) =
      ctx.values.set f.index (some v2) := List.set_set _ _ _ _
  refine ⟨?_, ?_, ?_⟩
  · dsimp only
    rw [hsets, List.getElem?_set_self hlt1]
  · unfold ExecutionContext.get_field_value_unchecked
    rw [if_neg (by simp [hsch])]
    dsimp only
    rw [hsets, List.getElem?_set_self hlt1]
  · unfold ExecutionContext.set_field_value
    rw [hres]
    dsimp only
    rw [if_pos hty2, if_pos hlt1, hsets]

/-- Witness for C5: binding `foo` to 1 and then to 42 leaves the table
exactly as a single binding to 42 would, and reading `foo` yields 42. -/
theorem claim_last_write_wins_witness :
    ({ scheme := schemeFooInt, values := [some (LhsValue.Int 42)] } :
        ExecutionContext).values[fooField.index]? = some (some (LhsValue.Int 42)) ∧
    ExecutionContext.get_field_value_unchecked true
        { scheme := schemeFooInt, values := [some (LhsValue.Int 42)] } fooField =
      Except.ok (LhsValue.Int 42) ∧
    (ExecutionContext.new schemeFooInt).set_field_value ("foo") (LhsValue.Int 42) =
      some ({ scheme := schemeFooInt, values := [some (LhsValue.Int 42)] },
        Except.ok ()) :=
  claim_last_write_wins true (ExecutionContext.new schemeFooInt) ("foo") fooField
    (LhsValue.Int 1) (LhsValue.Int 42)
    { scheme := schemeFooInt, values := [some (LhsValue.Int 1)] }
    { scheme := schemeFooInt, values := [some (LhsValue.Int 42)] }
    (by decide) (by rfl) (by rfl)

/-- C6: the slot count of a fresh context equals the field count of the
schema it was constructed from, and every non-panicking `set_field_value`
call preserves both the slot count and the scheme reference — the slot
array is never resized. (`get_field_value_unchecked` and the `scheme`
accessor take the context immutably in the source and cannot change it.) -/
theorem claim_slot_count_invariant (s : Scheme) (ctx ctx' : ExecutionContext)
    (name : String) (v : LhsValue) (r : Except FieldValueTypeMismatchError Unit)
    (hset : ctx.set_field_value name v = some (ctx', r)) :
    (ExecutionContext.new s).values.length = s.get_field_count ∧
    ctx'.values.length = ctx.values.length ∧ ctx'.scheme = ctx.scheme := by
  obtain ⟨hs, hcase⟩ := set_field_value_some_elim hset
  refine ⟨by simp [ExecutionContext.new], ?_, hs⟩
  rcases hcase with rfl | ⟨i, hi, hv⟩
  · rfl
  · rw [hv, List.length_set]

/-- Witness for C6: construction for the two-field schema yields two
slots, and a concrete successful set keeps slot count and scheme. -/
theorem claim_slot_count_invariant_witness :
    (ExecutionContext.new schemeAB).values.length = schemeAB.get_field_count ∧
    ({ scheme := schemeFooInt, values := [some (LhsValue.Int 1)] } :
        ExecutionContext).values.length =
      (ExecutionContext.new schemeFooInt).values.length ∧
    ({ scheme := schemeFooInt, values := [some (LhsValue.Int 1)] } :
        ExecutionContext).scheme = (ExecutionContext.new schemeFooInt).scheme :=
  claim_slot_count_invariant schemeAB (ExecutionContext.new schemeFooInt)
    { scheme := schemeFooInt, values := [some (LhsValue.Int 1)] }
    ("foo") (LhsValue.Int 1) (Except.ok ()) (by rfl)

/-- C7: once a slot is bound, no sequence of context operations ever
returns it to empty: the only mutating operation is `set_field_value`,
whose successful branch always writes `Some(value)`, so along any chain
of `Step`s a bound slot stays bound. -/
theorem claim_bound_never_cleared (ctx ctx' : ExecutionContext)
    (hsteps : Relation.ReflTransGen Step ctx ctx')
    (i : Nat) (hbound : ctx.slotBound i) :
    ctx'.slotBound i := by
  induction hsteps with
  | refl => exact hbound
  | tail hab hbc ih =>
    obtain ⟨v1, hv1⟩ := ih
    obtain ⟨name, value, r, hset⟩ := hbc
    obtain ⟨-, hcase⟩ := set_field_value_some_elim hset
    rcases hcase with heq | ⟨j, hj, hv⟩
    · rw [heq]
      exact ⟨v1, hv1⟩
    · by_cases hij : j = i
      · subst hij
        exact ⟨value, by rw [hv]; exact List.getElem?_set_self hj⟩
      · exact ⟨v1, by rw [hv, List.getElem?_set_ne hij]; exact hv1⟩

/-- Witness for C7: after one further successful set of `foo`, the
previously bound slot 0 is still bound. -/
theorem claim_bound_never_cleared_witness :
    ExecutionContext.slotBound
      { scheme := schemeFooInt, values := [some (LhsValue.Int 42)] } 0 :=
  claim_bound_never_cleared
    { scheme := schemeFooInt, values := [some (LhsValue.Int 1)] }
    { scheme := schemeFooInt, values := [some (LhsValue.Int 42)] }
    (Relation.ReflTransGen.single ⟨("foo"), LhsValue.Int 42, Except.ok (), by rfl⟩)
    0 ⟨LhsValue.Int 1, by rfl⟩

/-- C8: the precondition of a read — the field handle was resolved from
the same schema the context was constructed with — implies the handle's
owning scheme coincides with the context's, so the `debug_assert` never
fires; and the debug-build read returns exactly what the release build
(with the check compiled out) returns, so the check may be omitted. -/
theorem claim_debug_scheme_check (ctx : ExecutionContext) (name : String) (f : Field)
    (hres : ctx.scheme.get_field_index name = some f) :
    f.scheme = ctx.scheme ∧
    ctx.get_field_value_unchecked true f ≠
      Except.error GetError.debugAssertSchemeMismatch ∧
    ctx.get_field_value_unchecked true f = ctx.get_field_value_unchecked false f := by
  obtain ⟨hsch, -, -, -⟩ := get_field_index_spec _ _ _ hres
  refine ⟨hsch, ?_, ?_⟩
  · unfold ExecutionContext.get_field_value_unchecked
    rw [if_neg (by simp [hsch])]
    cases h : ctx.values[f.index]? with
    | none => simp
    | some o =>
      cases o with
      | none => simp
      | some v => simp
  · unfold ExecutionContext.get_field_value_unchecked
    rw [if_neg (by simp [hsch]), if_neg (by simp)]

/-- Witness for C8, at the repository test's schema: the handle for `foo`
resolved from the context's own scheme never trips the assertion, and
debug and release reads agree. -/
theorem claim_debug_scheme_check_witness :
    fooField.scheme = (ExecutionContext.new schemeFooInt).scheme ∧
    (ExecutionContext.new schemeFooInt).get_field_value_unchecked true fooField ≠
      Except.error GetError.debugAssertSchemeMismatch ∧
    (ExecutionContext.new schemeFooInt).get_field_value_unchecked true fooField =
      (ExecutionContext.new schemeFooInt).get_field_value_unchecked false fooField :=
  claim_debug_scheme_check (ExecutionContext.new schemeFooInt) ("foo") fooField
    (by decide)

/-- C9: when the name passed to `set_field_value` resolves to no field of
the associated scheme, the call panics in the `unwrap` of the failed
lookup (modelled as `none`) — a loud fault; in particular no context is
produced, so no state is silently modified or corrupted. -/
theorem claim_unknown_name_fault (ctx : ExecutionContext) (name : String)
    (v : LhsValue)
    (hres : ctx.scheme.get_field_index name = none) :
    ctx.set_field_value name v = none := by
  unfold ExecutionContext.set_field_value
  rw [hres]

/-- Witness for C9: setting the undeclared name `bar` on a context for the
one-field schema panics. -/
theorem claim_unknown_name_fault_witness :
    (ExecutionContext.new schemeFooInt).set_field_value ("bar") (LhsValue.Int 1) =
      none :=
  claim_unknown_name_fault (ExecutionContext.new schemeFooInt) ("bar")
    (LhsValue.Int 1) (by decide)

/-- C10: a successful `set_field_value` resolving to field `f` modifies
only the slot at `f`'s index: every other slot holds exactly what it held
before the call, and the scheme reference is unchanged. -/
theorem claim_set_frame (ctx : ExecutionContext) (name : String) (f : Field)
    (v : LhsValue) (ctx' : ExecutionContext) (j : Nat)
    (hres : ctx.scheme.get_field_index name = some f)
    (hset : ctx.set_field_value name v = some (ctx', Except.ok ()))
    (hj : j ≠ f.index) :
    ctx'.scheme = ctx.scheme ∧ ctx'.values[j]? = ctx.values[j]? := by
  obtain ⟨-, -, rfl⟩ := set_field_value_ok_elim f hres hset
  exact ⟨rfl, List.getElem?_set_ne (fun h => hj h.symm)⟩

/-- Witness for C10: setting `a` in a context for the two-field schema
leaves slot 1 (field `b`) exactly as it was, and the scheme unchanged. -/
theorem claim_set_frame_witness :
    ({ scheme := schemeAB,
        values := [some (LhsValue.Int 5), some (LhsValue.Bool true)] } :
          ExecutionContext).scheme =
      ({ scheme := schemeAB, values := [none, some (LhsValue.Bool true)] } :
          ExecutionContext).scheme ∧
    ({ scheme := schemeAB,
        values := [some (LhsValue.Int 5), some (LhsValue.Bool true)] } :
          ExecutionContext).values[1]? =
      ({ scheme := schemeAB, values := [none, some (LhsValue.Bool true)] } :
          ExecutionContext).values[1]? :=
  claim_set_frame
    { scheme := schemeAB, values := [none, some (LhsValue.Bool true)] }
    ("a") aField (LhsValue.Int 5)
    { scheme := schemeAB,
      values := [some (LhsValue.Int 5), some (LhsValue.Bool true)] }
    1 (by decide) (by rfl) (by decide)

end Wirefilter
